import Mathlib

/-!
Verification development for the cogniboard project/task-tracking
application.  The repository's own code is a thin HTTP client plus page
components; the domain service they call (project registry, task registry,
comment registry) is specified in the repository's design document.  The
definitions below embed, on one hand, the client code that is present in
the repository (response interceptor, declared response shapes, dashboard
statistics, profile-page statistics), and on the other hand the domain
service modelled from the specification where the backend source is not in
the repository.  Dates and identifiers are modelled as naturals; ISO date
strings are ordered, so a natural with its order is a faithful carrier.
-/

namespace Cogniboard

/-- Membership role, from the client type `role: 'owner' | 'member'`. -/
inductive Role
  | owner
  | member
deriving DecidableEq, Repr

/-- Task status, from `'todo' | 'in progress' | 'review' | 'done'`. -/
inductive TaskStatus
  | todo
  | inProgress
  | review
  | done
deriving DecidableEq, Repr

/-- Task priority, from `'low' | 'medium' | 'high' | 'critical'`. -/
inductive TaskPriority
  | low
  | medium
  | high
  | critical
deriving DecidableEq, Repr

/-- Error taxonomy of the API surface (spec section 7). -/
inductive ApiError
  | validationError
  | authError
  | forbiddenError
  | notFoundError
  | conflictError
deriving DecidableEq, Repr

/-- A project membership row, from the client `ProjectMember` interface
(`user_id`, `role`); the timestamp and the embedded user object play no
role in any claim and are omitted. -/
structure ProjectMember where
  user_id : Nat
  role : Role
deriving DecidableEq, Repr

/-- Number of members of a membership list whose role is `owner`. -/
def ownerCount (ms : List ProjectMember) : Nat :=
  (ms.filter (fun m => m.role == Role.owner)).length

/-- Whether `uid` appears in the membership list with role `owner`. -/
def isOwner (ms : List ProjectMember) (uid : Nat) : Bool :=
  ms.any (fun m => m.user_id == uid && m.role == Role.owner)

/-- Whether `uid` appears in the membership list at all. -/
def isMember (ms : List ProjectMember) (uid : Nat) : Bool :=
  ms.any (fun m => m.user_id == uid)

/-- Modelled from the spec: `create(name, description?)` of the Project
Registry (section 4.2) makes the creator the sole `owner` member; this is
the membership list of a freshly created project.  The backend source is
not in the repository; only the client declaration `projectsAPI.create`
is. -/
def createProjectMembers (creator : Nat) : List ProjectMember :=
  [⟨creator, Role.owner⟩]

/-- Modelled from the spec: `addMember(id, userId, role)` (section 4.2).
Only an owner may add; adding an existing member is a `ConflictError`. -/
def addMember (caller : Nat) (ms : List ProjectMember) (uid : Nat)
    (r : Role) : Except ApiError (List ProjectMember) :=
  if !isOwner ms caller then Except.error ApiError.forbiddenError
  else if isMember ms uid then Except.error ApiError.conflictError
  else Except.ok (ms ++ [⟨uid, r⟩])

/-- The membership list with `uid`'s role changed to `r`. -/
def applyRoleChange (ms : List ProjectMember) (uid : Nat) (r : Role) :
    List ProjectMember :=
  ms.map (fun m => if m.user_id == uid then ⟨m.user_id, r⟩ else m)

/-- The membership list with `uid` removed. -/
def applyRemoval (ms : List ProjectMember) (uid : Nat) :
    List ProjectMember :=
  ms.filter (fun m => m.user_id != uid)

/-- Modelled from the spec: `updateMemberRole(id, userId, role)` (section
4.2).  Only an owner may call it; it fails with `ValidationError` ("last
owner") when the role change would leave zero owners. -/
def updateMemberRole (caller : Nat) (ms : List ProjectMember) (uid : Nat)
    (r : Role) : Except ApiError (List ProjectMember) :=
  if !isOwner ms caller then Except.error ApiError.forbiddenError
  else if !isMember ms uid then Except.error ApiError.notFoundError
  else if ownerCount (applyRoleChange ms uid r) == 0 then
    Except.error ApiError.validationError
  else Except.ok (applyRoleChange ms uid r)

/-- Modelled from the spec: `removeMember(id, userId)` (section 4.2).
Only an owner may call it; it fails with `ValidationError` ("last owner")
when the removal would leave zero owners. -/
def removeMember (caller : Nat) (ms : List ProjectMember) (uid : Nat) :
    Except ApiError (List ProjectMember) :=
  if !isOwner ms caller then Except.error ApiError.forbiddenError
  else if !isMember ms uid then Except.error ApiError.notFoundError
  else if ownerCount (applyRemoval ms uid) == 0 then
    Except.error ApiError.validationError
  else Except.ok (applyRemoval ms uid)

/-- The membership list a project holds after a mutation attempt: on
success the new list, on failure the old list is kept (the operation has
no effect). -/
def membersAfter (ms : List ProjectMember)
    (res : Except ApiError (List ProjectMember)) : List ProjectMember :=
  match res with
  | Except.ok ms' => ms'
  | Except.error _ => ms

theorem ownerCount_append (xs ys : List ProjectMember) :
    ownerCount (xs ++ ys) = ownerCount xs + ownerCount ys := by
  simp [ownerCount, List.filter_append]

theorem addMember_preserves (caller uid : Nat) (r : Role)
    (ms : List ProjectMember) (hinv : 1 ≤ ownerCount ms) :
    1 ≤ ownerCount (membersAfter ms (addMember caller ms uid r)) := by
  unfold addMember
  cases h1 : isOwner ms caller
  · simpa [h1, membersAfter] using hinv
  · cases h2 : isMember ms uid
    · simp [h1, h2, membersAfter, ownerCount_append]
      omega
    · simpa [h1, h2, membersAfter] using hinv

theorem updateMemberRole_preserves (caller uid : Nat) (r : Role)
    (ms : List ProjectMember) (hinv : 1 ≤ ownerCount ms) :
    1 ≤ ownerCount (membersAfter ms (updateMemberRole caller ms uid r)) := by
  unfold updateMemberRole
  cases h1 : isOwner ms caller
  · simpa [h1, membersAfter] using hinv
  · cases h2 : isMember ms uid
    · simpa [h1, h2, membersAfter] using hinv
    · cases h3 : ownerCount (applyRoleChange ms uid r) == 0
      · simp only [h1, h2, h3, Bool.not_true, Bool.not_false, if_false,
          if_true, Bool.false_eq_true, membersAfter]
        simp at h3
        omega
      · simpa [h1, h2, h3, membersAfter] using hinv

theorem removeMember_preserves (caller uid : Nat)
    (ms : List ProjectMember) (hinv : 1 ≤ ownerCount ms) :
    1 ≤ ownerCount (membersAfter ms (removeMember caller ms uid)) := by
  unfold removeMember
  cases h1 : isOwner ms caller
  · simpa [h1, membersAfter] using hinv
  · cases h2 : isMember ms uid
    · simpa [h1, h2, membersAfter] using hinv
    · cases h3 : ownerCount (applyRemoval ms uid) == 0
      · simp only [h1, h2, h3, Bool.not_true, Bool.not_false, if_false,
          if_true, Bool.false_eq_true, membersAfter]
        simp at h3
        omega
      · simpa [h1, h2, h3, membersAfter] using hinv

/-- C1: after every successful membership mutation (project create,
addMember, updateMemberRole, removeMember) the project keeps at least one
`owner` member; a role change or removal that would leave zero owners
fails with `ValidationError`, and any failed mutation leaves the
membership list unchanged (`membersAfter` keeps the old list on error). -/
theorem C1_last_owner_invariant (caller uid creator : Nat) (r : Role)
    (ms : List ProjectMember) (hinv : 1 ≤ ownerCount ms) :
    ownerCount (createProjectMembers creator) = 1
    ∧ 1 ≤ ownerCount (membersAfter ms (addMember caller ms uid r))
    ∧ 1 ≤ ownerCount (membersAfter ms (updateMemberRole caller ms uid r))
    ∧ 1 ≤ ownerCount (membersAfter ms (removeMember caller ms uid))
    ∧ (isOwner ms caller = true → isMember ms uid = true →
        ownerCount (applyRoleChange ms uid r) = 0 →
        updateMemberRole caller ms uid r =
          Except.error ApiError.validationError)
    ∧ (isOwner ms caller = true → isMember ms uid = true →
        ownerCount (applyRemoval ms uid) = 0 →
        removeMember caller ms uid = Except.error ApiError.validationError)
    ∧ (∀ e, updateMemberRole caller ms uid r = Except.error e →
        membersAfter ms (updateMemberRole caller ms uid r) = ms)
    ∧ (∀ e, removeMember caller ms uid = Except.error e →
        membersAfter ms (removeMember caller ms uid) = ms) := by
  refine ⟨rfl, addMember_preserves caller uid r ms hinv,
    updateMemberRole_preserves caller uid r ms hinv,
    removeMember_preserves caller uid ms hinv, ?_, ?_, ?_, ?_⟩
  · intro h1 h2 h3
    simp [updateMemberRole, h1, h2, h3]
  · intro h1 h2 h3
    simp [removeMember, h1, h2, h3]
  · intro e he
    simp [membersAfter, he]
  · intro e he
    simp [membersAfter, he]

/-- Witness for C1 at a concrete two-member project. -/
theorem C1_last_owner_invariant_witness :
    1 ≤ ownerCount [⟨1, Role.owner⟩, ⟨2, Role.member⟩]
    ∧ (ownerCount (createProjectMembers 3) = 1
    ∧ 1 ≤ ownerCount (membersAfter [⟨1, Role.owner⟩, ⟨2, Role.member⟩]
        (addMember 1 [⟨1, Role.owner⟩, ⟨2, Role.member⟩] 4 Role.member))
    ∧ 1 ≤ ownerCount (membersAfter [⟨1, Role.owner⟩, ⟨2, Role.member⟩]
        (updateMemberRole 1 [⟨1, Role.owner⟩, ⟨2, Role.member⟩] 4
          Role.member))
    ∧ 1 ≤ ownerCount (membersAfter [⟨1, Role.owner⟩, ⟨2, Role.member⟩]
        (removeMember 1 [⟨1, Role.owner⟩, ⟨2, Role.member⟩] 4))
    ∧ (isOwner [⟨1, Role.owner⟩, ⟨2, Role.member⟩] 1 = true →
        isMember [⟨1, Role.owner⟩, ⟨2, Role.member⟩] 4 = true →
        ownerCount (applyRoleChange [⟨1, Role.owner⟩, ⟨2, Role.member⟩] 4
          Role.member) = 0 →
        updateMemberRole 1 [⟨1, Role.owner⟩, ⟨2, Role.member⟩] 4
          Role.member = Except.error ApiError.validationError)
    ∧ (isOwner [⟨1, Role.owner⟩, ⟨2, Role.member⟩] 1 = true →
        isMember [⟨1, Role.owner⟩, ⟨2, Role.member⟩] 4 = true →
        ownerCount (applyRemoval [⟨1, Role.owner⟩, ⟨2, Role.member⟩] 4)
          = 0 →
        removeMember 1 [⟨1, Role.owner⟩, ⟨2, Role.member⟩] 4 =
          Except.error ApiError.validationError)
    ∧ (∀ e, updateMemberRole 1 [⟨1, Role.owner⟩, ⟨2, Role.member⟩] 4
          Role.member = Except.error e →
        membersAfter [⟨1, Role.owner⟩, ⟨2, Role.member⟩]
          (updateMemberRole 1 [⟨1, Role.owner⟩, ⟨2, Role.member⟩] 4
            Role.member) = [⟨1, Role.owner⟩, ⟨2, Role.member⟩])
    ∧ (∀ e, removeMember 1 [⟨1, Role.owner⟩, ⟨2, Role.member⟩] 4 =
          Except.error e →
        membersAfter [⟨1, Role.owner⟩, ⟨2, Role.member⟩]
          (removeMember 1 [⟨1, Role.owner⟩, ⟨2, Role.member⟩] 4) =
          [⟨1, Role.owner⟩, ⟨2, Role.member⟩])) :=
  ⟨by decide, C1_last_owner_invariant 1 4 3 Role.member
    [⟨1, Role.owner⟩, ⟨2, Role.member⟩] (by decide)⟩

/-- A task row as stored by the Task Registry, from the client `Task`
interface minus the derived `overdue` flag and the embedded
assignee/comments objects (spec section 3: `overdue` is derived, never
stored).  `due_date` is an ordered day number standing for the ISO date
string. -/
structure Task where
  id : Nat
  project_id : Nat
  title : String
  description : Option String
  assignee_id : Option Nat
  priority : TaskPriority
  status : TaskStatus
  due_date : Option Nat
  created_at : Nat
deriving DecidableEq, Repr

/-- Modelled from the spec: `overdue` is true iff `dueDate` is set, is
strictly before the current date, and `status` is not `done` (spec
section 3); computed at read time against the date `now`. -/
def overdueAt (now : Nat) (t : Task) : Bool :=
  match t.due_date with
  | some d => decide (d < now) && !(t.status == TaskStatus.done)
  | none => false

/-- A task as returned to clients: the stored row plus the derived
`overdue` flag, matching the client `Task` interface. -/
structure TaskView extends Task where
  overdue : Bool
deriving DecidableEq, Repr

/-- Modelled from the spec: reading a task computes `overdue` at read
time from the stored row; it is never persisted. -/
def readTask (now : Nat) (t : Task) : TaskView :=
  { t with overdue := overdueAt now t }

/-- A sparse task patch, from the client `TaskUpdate` interface: every
field optional, and no `overdue` field exists in the payload. -/
structure TaskUpdate where
  title : Option String := none
  description : Option String := none
  assignee_id : Option Nat := none
  priority : Option TaskPriority := none
  status : Option TaskStatus := none
  due_date : Option Nat := none
deriving DecidableEq, Repr

/-- Modelled from the spec: partial update semantics (spec section 6) —
only fields present in the patch are changed; absent fields keep the
current value. -/
def applyTaskUpdate (u : TaskUpdate) (t : Task) : Task :=
  { id := t.id
    project_id := t.project_id
    title := u.title.getD t.title
    description := match u.description with
      | some d => some d
      | none => t.description
    assignee_id := match u.assignee_id with
      | some a => some a
      | none => t.assignee_id
    priority := u.priority.getD t.priority
    status := u.status.getD t.status
    due_date := match u.due_date with
      | some d => some d
      | none => t.due_date
    created_at := t.created_at }

/-- The patch the client sends to mark a task done: only `status` is
present. -/
def markDonePatch : TaskUpdate :=
  { status := some TaskStatus.done }

/-- C2: the overdue flag returned on read is true exactly when the task
has a due date strictly before the current date and is not done; patching
the status to `done` makes a subsequent read return `overdue = false`
while leaving the due date unchanged; and since `overdue` is not a field
of the stored row or of any patch, the flag a read returns is always the
derived value, whatever patch was applied. -/
theorem C2_overdue_derived (now : Nat) (t : Task) (u : TaskUpdate) :
    ((readTask now t).overdue = true ↔
      ∃ d, t.due_date = some d ∧ d < now ∧ t.status ≠ TaskStatus.done)
    ∧ (readTask now (applyTaskUpdate markDonePatch t)).overdue = false
    ∧ (applyTaskUpdate markDonePatch t).due_date = t.due_date
    ∧ (readTask now (applyTaskUpdate u t)).overdue =
        overdueAt now (applyTaskUpdate u t) := by
  refine ⟨?_, ?_, rfl, rfl⟩
  · cases h : t.due_date with
    | none => simp [readTask, overdueAt, h]
    | some d => simp [readTask, overdueAt, h]
  · simp [readTask, overdueAt, applyTaskUpdate, markDonePatch]
    cases t.due_date <;> rfl

/-- A comment row, from the client `Comment` interface (`author_id` is
optional: null once the author account is removed). -/
structure Comment where
  id : Nat
  task_id : Nat
  author_id : Option Nat
  body : String
deriving DecidableEq, Repr

/-- A sparse comment patch, from the client `CommentUpdate` interface. -/
structure CommentUpdate where
  body : Option String := none
deriving DecidableEq, Repr

/-- Modelled from the spec: Comment Registry `update(id, patch)` (spec
section 4.4) — only the comment's author may update it, others fail with
`ForbiddenError`; a body that is empty after trimming fails with
`ValidationError`. -/
def updateComment (caller : Nat) (c : Comment) (u : CommentUpdate) :
    Except ApiError Comment :=
  if c.author_id == some caller then
    match u.body with
    | some b =>
      if b.trim == "" then Except.error ApiError.validationError
      else Except.ok { c with body := b }
    | none => Except.ok c
  else Except.error ApiError.forbiddenError

/-- Modelled from the spec: Comment Registry `delete(id)` (spec section
4.4) — only the comment's author may delete it. -/
def deleteComment (caller : Nat) (c : Comment) : Except ApiError Unit :=
  if c.author_id == some caller then Except.ok ()
  else Except.error ApiError.forbiddenError

/-- The comment a task holds after an update attempt: on failure the
comment is kept unchanged. -/
def commentAfter (c : Comment) (res : Except ApiError Comment) : Comment :=
  match res with
  | Except.ok c' => c'
  | Except.error _ => c

/-- C3: a caller who is not the comment's author gets `ForbiddenError`
from both update and delete and the comment is unchanged; the author is
permitted: delete succeeds and update never fails with
`ForbiddenError`. -/
theorem C3_comment_authorship (caller : Nat) (c : Comment)
    (u : CommentUpdate) (h : c.author_id ≠ some caller) :
    updateComment caller c u = Except.error ApiError.forbiddenError
    ∧ deleteComment caller c = Except.error ApiError.forbiddenError
    ∧ commentAfter c (updateComment caller c u) = c
    ∧ (∀ a, c.author_id = some a →
        deleteComment a c = Except.ok ()
        ∧ updateComment a c u ≠ Except.error ApiError.forbiddenError) := by
  have hb : (c.author_id == some caller) = false := by
    simp [h]
  refine ⟨?_, ?_, ?_, ?_⟩
  · simp [updateComment, hb]
  · simp [deleteComment, hb]
  · simp [commentAfter, updateComment, hb]
  · intro a ha
    have hb' : (c.author_id == some a) = true := by
      simp [ha]
    constructor
    · simp [deleteComment, hb']
    · simp only [updateComment, hb', if_true]
      cases hu : u.body with
      | none => simp
      | some b =>
        cases htr : b.trim == "" <;> simp [htr]

/-- Witness for C3: caller 2 on a comment authored by user 1. -/
theorem C3_comment_authorship_witness :
    (Comment.mk 10 5 (some 1) "hello").author_id ≠ some 2
    ∧ (updateComment 2 (Comment.mk 10 5 (some 1) "hello") { body := none }
        = Except.error ApiError.forbiddenError
    ∧ deleteComment 2 (Comment.mk 10 5 (some 1) "hello")
        = Except.error ApiError.forbiddenError
    ∧ commentAfter (Comment.mk 10 5 (some 1) "hello")
        (updateComment 2 (Comment.mk 10 5 (some 1) "hello")
          { body := none }) = Comment.mk 10 5 (some 1) "hello"
    ∧ (∀ a, (Comment.mk 10 5 (some 1) "hello").author_id = some a →
        deleteComment a (Comment.mk 10 5 (some 1) "hello") = Except.ok ()
        ∧ updateComment a (Comment.mk 10 5 (some 1) "hello")
            { body := none } ≠
          Except.error ApiError.forbiddenError)) :=
  ⟨by decide, C3_comment_authorship 2 (Comment.mk 10 5 (some 1) "hello")
    { body := none } (by decide)⟩

/-- A project row, from the client `Project` interface: memberships are
exposed under the field named `members`. -/
structure Project where
  id : Nat
  name : String
  description : Option String
  members : List ProjectMember
deriving DecidableEq, Repr

/-- The registries' state as seen through the API: the projects (with
their membership lists) and the task rows. -/
structure RegistryState where
  projects : List Project
  tasks : List Task
deriving DecidableEq, Repr

/-- Whether `uid` is a member of the project identified by `pid`. -/
def isMemberOfProject (s : RegistryState) (uid pid : Nat) : Bool :=
  s.projects.any (fun p => p.id == pid && isMember p.members uid)

/-- A task-list filter, from the client `TaskFilter` interface: every
field optional. -/
structure TaskFilter where
  project_id : Option Nat := none
  assignee_id : Option Nat := none
  status : Option TaskStatus := none
  priority : Option TaskPriority := none
  due_date_from : Option Nat := none
  due_date_to : Option Nat := none
  skip : Option Nat := none
  limit : Option Nat := none
deriving DecidableEq, Repr

/-- Project filter conjunct: absent means no constraint. -/
def matchProject (f : TaskFilter) (t : Task) : Bool :=
  match f.project_id with
  | some x => t.project_id == x
  | none => true

/-- Assignee filter conjunct. -/
def matchAssignee (f : TaskFilter) (t : Task) : Bool :=
  match f.assignee_id with
  | some x => t.assignee_id == some x
  | none => true

/-- Status filter conjunct. -/
def matchStatus (f : TaskFilter) (t : Task) : Bool :=
  match f.status with
  | some x => t.status == x
  | none => true

/-- Priority filter conjunct. -/
def matchPriority (f : TaskFilter) (t : Task) : Bool :=
  match f.priority with
  | some x => t.priority == x
  | none => true

/-- Lower due-date bound conjunct: a bounded filter only matches tasks
that have a due date. -/
def matchDueFrom (f : TaskFilter) (t : Task) : Bool :=
  match f.due_date_from with
  | some x => match t.due_date with
    | some d => decide (x ≤ d)
    | none => false
  | none => true

/-- Upper due-date bound conjunct. -/
def matchDueTo (f : TaskFilter) (t : Task) : Bool :=
  match f.due_date_to with
  | some x => match t.due_date with
    | some d => decide (d ≤ x)
    | none => false
  | none => true

/-- Modelled from the spec: filters combine with logical AND (spec
section 4.3). -/
def matchesFilter (f : TaskFilter) (t : Task) : Bool :=
  matchProject f t && matchAssignee f t && matchStatus f t
    && matchPriority f t && matchDueFrom f t && matchDueTo f t

/-- Modelled from the spec: `listAll(filter)` (spec section 4.3) — tasks
are scoped first to projects the caller is a member of, then filtered,
then paginated offset-style by `skip` and `limit`; no limit is applied
when `limit` is absent. -/
def listAll (s : RegistryState) (uid : Nat) (f : TaskFilter) : List Task :=
  match f.limit with
  | some l =>
    ((((s.tasks.filter
      (fun t => isMemberOfProject s uid t.project_id)).filter
        (matchesFilter f)).drop (f.skip.getD 0)).take l)
  | none =>
    (((s.tasks.filter
      (fun t => isMemberOfProject s uid t.project_id)).filter
        (matchesFilter f)).drop (f.skip.getD 0))

theorem matchProject_iff (f : TaskFilter) (t : Task) :
    matchProject f t = true ↔
      ∀ x, f.project_id = some x → t.project_id = x := by
  cases h : f.project_id <;> simp [matchProject, h]

theorem matchAssignee_iff (f : TaskFilter) (t : Task) :
    matchAssignee f t = true ↔
      ∀ x, f.assignee_id = some x → t.assignee_id = some x := by
  cases h : f.assignee_id <;> simp [matchAssignee, h]

theorem matchStatus_iff (f : TaskFilter) (t : Task) :
    matchStatus f t = true ↔ ∀ x, f.status = some x → t.status = x := by
  cases h : f.status <;> simp [matchStatus, h]

theorem matchPriority_iff (f : TaskFilter) (t : Task) :
    matchPriority f t = true ↔
      ∀ x, f.priority = some x → t.priority = x := by
  cases h : f.priority <;> simp [matchPriority, h]

theorem matchDueFrom_iff (f : TaskFilter) (t : Task) :
    matchDueFrom f t = true ↔
      ∀ x, f.due_date_from = some x →
        ∃ d, t.due_date = some d ∧ x ≤ d := by
  cases h : f.due_date_from with
  | none => simp [matchDueFrom, h]
  | some x => cases hd : t.due_date <;> simp [matchDueFrom, h, hd]

theorem listAll_unpaginated (s : RegistryState) (uid : Nat)
    (f : TaskFilter) :
    listAll s uid { f with skip := none, limit := none } =
      (s.tasks.filter
        (fun t => isMemberOfProject s uid t.project_id)).filter
          (matchesFilter f) := rfl

theorem listAll_no_limit (s : RegistryState) (uid : Nat) (f : TaskFilter) :
    listAll s uid { f with limit := none } =
      ((s.tasks.filter
        (fun t => isMemberOfProject s uid t.project_id)).filter
          (matchesFilter f)).drop (f.skip.getD 0) := rfl

theorem listAll_with_limit (s : RegistryState) (uid : Nat)
    (f : TaskFilter) (l : Nat) :
    listAll s uid { f with limit := some l } =
      (((s.tasks.filter
        (fun t => isMemberOfProject s uid t.project_id)).filter
          (matchesFilter f)).drop (f.skip.getD 0)).take l := rfl

theorem matchDueTo_iff (f : TaskFilter) (t : Task) :
    matchDueTo f t = true ↔
      ∀ x, f.due_date_to = some x →
        ∃ d, t.due_date = some d ∧ d ≤ x := by
  cases h : f.due_date_to with
  | none => simp [matchDueTo, h]
  | some x => cases hd : t.due_date <;> simp [matchDueTo, h, hd]

/-- C4: a task is in the result of an unpaginated `listAll` exactly when
it is a stored task of a project the caller belongs to and satisfies
every supplied filter conjunct (the AND of all present filters, spelled
out per field); an absent `limit` applies no truncation, and `skip` and
`limit` paginate the unpaginated result offset-style. -/
theorem C4_listAll_filtering (s : RegistryState) (uid : Nat)
    (f : TaskFilter) (t : Task) (l : Nat) :
    (t ∈ listAll s uid { f with skip := none, limit := none } ↔
      t ∈ s.tasks ∧ isMemberOfProject s uid t.project_id = true
        ∧ matchesFilter f t = true)
    ∧ (matchesFilter f t = true ↔
        (∀ x, f.project_id = some x → t.project_id = x)
        ∧ (∀ x, f.assignee_id = some x → t.assignee_id = some x)
        ∧ (∀ x, f.status = some x → t.status = x)
        ∧ (∀ x, f.priority = some x → t.priority = x)
        ∧ (∀ x, f.due_date_from = some x →
            ∃ d, t.due_date = some d ∧ x ≤ d)
        ∧ (∀ x, f.due_date_to = some x →
            ∃ d, t.due_date = some d ∧ d ≤ x))
    ∧ listAll s uid { f with limit := none } =
        (listAll s uid { f with skip := none, limit := none }).drop
          (f.skip.getD 0)
    ∧ listAll s uid { f with limit := some l } =
        ((listAll s uid { f with skip := none, limit := none }).drop
          (f.skip.getD 0)).take l := by
  refine ⟨?_, ?_, ?_, ?_⟩
  · rw [listAll_unpaginated, List.mem_filter, List.mem_filter]
    constructor
    · rintro ⟨⟨ht, hm⟩, hf⟩
      exact ⟨ht, hm, hf⟩
    · rintro ⟨ht, hm, hf⟩
      exact ⟨⟨ht, hm⟩, hf⟩
  · rw [matchesFilter]
    simp only [Bool.and_eq_true, matchProject_iff, matchAssignee_iff,
      matchStatus_iff, matchPriority_iff, matchDueFrom_iff, matchDueTo_iff]
    tauto
  · rw [listAll_no_limit, listAll_unpaginated]
  · rw [listAll_with_limit, listAll_unpaginated]

/-- A sparse project patch, from the client `ProjectUpdate` interface. -/
structure ProjectUpdate where
  name : Option String := none
  description : Option String := none
deriving DecidableEq, Repr

/-- Modelled from the spec: partial update semantics for projects (spec
section 6) — only fields present in the patch are changed. -/
def applyProjectUpdate (u : ProjectUpdate) (p : Project) : Project :=
  { id := p.id
    name := u.name.getD p.name
    description := match u.description with
      | some d => some d
      | none => p.description
    members := p.members }

/-- Modelled from the spec: partial update semantics for comment bodies
(spec section 6); this is the success branch of `updateComment`. -/
def applyCommentUpdate (u : CommentUpdate) (c : Comment) : Comment :=
  { id := c.id
    task_id := c.task_id
    author_id := c.author_id
    body := u.body.getD c.body }

/-- C5: for each partial update operation (project, task, comment), every
field absent from the submitted patch keeps its pre-operation value, and
fields never carried by a patch (identifiers, owning ids, creation time,
membership) are always unchanged. -/
theorem C5_sparse_patch_frame (u : TaskUpdate) (t : Task)
    (pu : ProjectUpdate) (p : Project) (cu : CommentUpdate) (c : Comment) :
    ((u.title = none → (applyTaskUpdate u t).title = t.title)
      ∧ (u.description = none →
          (applyTaskUpdate u t).description = t.description)
      ∧ (u.assignee_id = none →
          (applyTaskUpdate u t).assignee_id = t.assignee_id)
      ∧ (u.priority = none → (applyTaskUpdate u t).priority = t.priority)
      ∧ (u.status = none → (applyTaskUpdate u t).status = t.status)
      ∧ (u.due_date = none → (applyTaskUpdate u t).due_date = t.due_date)
      ∧ (applyTaskUpdate u t).id = t.id
      ∧ (applyTaskUpdate u t).project_id = t.project_id
      ∧ (applyTaskUpdate u t).created_at = t.created_at)
    ∧ ((pu.name = none → (applyProjectUpdate pu p).name = p.name)
      ∧ (pu.description = none →
          (applyProjectUpdate pu p).description = p.description)
      ∧ (applyProjectUpdate pu p).id = p.id
      ∧ (applyProjectUpdate pu p).members = p.members)
    ∧ ((cu.body = none → (applyCommentUpdate cu c).body = c.body)
      ∧ (applyCommentUpdate cu c).id = c.id
      ∧ (applyCommentUpdate cu c).task_id = c.task_id
      ∧ (applyCommentUpdate cu c).author_id = c.author_id) := by
  refine ⟨⟨?_, ?_, ?_, ?_, ?_, ?_, rfl, rfl, rfl⟩,
    ⟨?_, ?_, rfl, rfl⟩, ⟨?_, rfl, rfl, rfl⟩⟩
  all_goals intro h
  · simp [applyTaskUpdate, h]
  · simp [applyTaskUpdate, h]
  · simp [applyTaskUpdate, h]
  · simp [applyTaskUpdate, h]
  · simp [applyTaskUpdate, h]
  · simp [applyTaskUpdate, h]
  · simp [applyProjectUpdate, h]
  · simp [applyProjectUpdate, h]
  · simp [applyCommentUpdate, h]

/-- The list-returning operations of the API surface, from the client
modules: `authAPI.getUsers`, `projectsAPI.getAll`,
`projectsAPI.getMembers`, `tasksAPI.getAll`, `tasksAPI.getComments`. -/
inductive ListOperation
  | getUsers
  | getProjects
  | getProjectMembers
  | getTasks
  | getComments
deriving DecidableEq, Repr

/-- Shape of a list response body: the collection either sits under a
named field of an object, or is the bare top-level array. -/
inductive ListResponseShape
  | wrapped (field : String)
  | bareArray
deriving DecidableEq, Repr

/-- Response shape of each list-returning operation, from the declared
response types in the client: `UserListResponse` holds a `users` field,
`ProjectListResponse` a `projects` field, `TaskListResponse` a `tasks`
field, `CommentListResponse` a `comments` field, while
`projectsAPI.getMembers` is declared as `api.get<ProjectMember[]>`, a
bare array. -/
def listResponseShape : ListOperation → ListResponseShape
  | ListOperation.getUsers => ListResponseShape.wrapped "users"
  | ListOperation.getProjects => ListResponseShape.wrapped "projects"
  | ListOperation.getTasks => ListResponseShape.wrapped "tasks"
  | ListOperation.getComments => ListResponseShape.wrapped "comments"
  | ListOperation.getProjectMembers => ListResponseShape.bareArray

/-- C6 counterexample: the project member list is declared as a bare
array, so it is not the case that every list-returning operation wraps
its collection in a named field. -/
theorem C6_counterexample_member_list :
    listResponseShape ListOperation.getProjectMembers =
      ListResponseShape.bareArray
    ∧ ¬ (∀ op : ListOperation,
          ∃ fieldName, listResponseShape op =
            ListResponseShape.wrapped fieldName) := by
  refine ⟨rfl, fun h => ?_⟩
  obtain ⟨fieldName, hf⟩ := h ListOperation.getProjectMembers
  simp [listResponseShape] at hf

/-- C6 amended: the user, project, task and comment list operations wrap
their collections under the fields `users`, `projects`, `tasks`,
`comments`; the project member list alone returns a bare array. -/
theorem C6_list_response_shapes :
    listResponseShape ListOperation.getUsers =
      ListResponseShape.wrapped "users"
    ∧ listResponseShape ListOperation.getProjects =
        ListResponseShape.wrapped "projects"
    ∧ listResponseShape ListOperation.getTasks =
        ListResponseShape.wrapped "tasks"
    ∧ listResponseShape ListOperation.getComments =
        ListResponseShape.wrapped "comments"
    ∧ listResponseShape ListOperation.getProjectMembers =
        ListResponseShape.bareArray :=
  ⟨rfl, rfl, rfl, rfl, rfl⟩

/-- The operations of the client API modules (`authAPI`, `projectsAPI`,
`tasksAPI`, `commentsAPI`); every one is issued through the shared axios
instance `api`. -/
inductive ApiOperation
  | authRegister
  | authLogin
  | authGetMe
  | authGetUsers
  | projectsCreate
  | projectsGetAll
  | projectsGetById
  | projectsUpdate
  | projectsDelete
  | projectsGetMembers
  | projectsAddMember
  | projectsUpdateMemberRole
  | projectsRemoveMember
  | projectsGetTasks
  | projectsCreateTask
  | tasksGetAll
  | tasksGetById
  | tasksUpdate
  | tasksDelete
  | tasksGetComments
  | tasksCreateComment
  | commentsUpdate
  | commentsDelete
deriving DecidableEq, Repr

/-- The client-side session state touched by the response interceptor:
the stored token and the window location. -/
structure ClientState where
  token : Option String
  href : String
deriving DecidableEq, Repr

/-- From the response interceptor installed on the shared axios instance:
on an error response with status 401 the stored token is removed and the
location is set to `/login`; any other error leaves the client session
state unchanged (the error is re-thrown either way). -/
def onResponseError (status : Nat) (st : ClientState) : ClientState :=
  if status == 401 then { token := none, href := "/login" } else st

/-- Error handling attached to each operation: every API module calls
through the single shared instance `api`, so every operation gets the
same response interceptor. -/
def errorHandlerOf (_op : ApiOperation) :
    Nat → ClientState → ClientState :=
  fun status st => onResponseError status st

/-- C7: whatever the operation and whatever the prior client state, a 401
(authentication failure) response discards the stored credential and
redirects to the login page; every operation shares the one
interceptor. -/
theorem C7_auth_error_session_ended (op : ApiOperation)
    (st : ClientState) :
    errorHandlerOf op 401 st = { token := none, href := "/login" }
    ∧ errorHandlerOf op = onResponseError :=
  ⟨rfl, rfl⟩

/-- `listAll` as a state-passing operation: a read returns the result and
the (unchanged) registry state. -/
def listAllOp (s : RegistryState) (uid : Nat) (f : TaskFilter) :
    RegistryState × List Task :=
  (s, listAll s uid f)

/-- C8: a `listAll` read does not change the registry state, so two
consecutive calls with an identical filter and no intervening writes
return identical results in identical order. -/
theorem C8_listAll_idempotent (s : RegistryState) (uid : Nat)
    (f : TaskFilter) :
    (listAllOp s uid f).1 = s
    ∧ (listAllOp (listAllOp s uid f).1 uid f).2 = (listAllOp s uid f).2 :=
  ⟨rfl, rfl⟩

/-- The filter the dashboard page sends: `tasksAPI.getAll` with limit 10
and nothing else. -/
def dashboardFilter : TaskFilter :=
  { limit := some 10 }

/-- From `loadDashboardData` in the dashboard page: the `tasks` field of
the limit-10 `listAll` response, as the backend renders it (derived
`overdue` computed at read time). -/
def dashboardTasks (now : Nat) (s : RegistryState) (uid : Nat) :
    List TaskView :=
  (listAll s uid dashboardFilter).map (readTask now)

/-- The task statistics the dashboard displays. -/
structure TaskStats where
  total : Nat
  todo : Nat
  inProgress : Nat
  done : Nat
  overdue : Nat
deriving DecidableEq, Repr

/-- From `getTaskStats` in the dashboard page: every count is taken over
the loaded `recentTasks` list. -/
def getTaskStats (ts : List TaskView) : TaskStats :=
  { total := ts.length
    todo := (ts.filter (fun t => t.status == TaskStatus.todo)).length
    inProgress :=
      (ts.filter (fun t => t.status == TaskStatus.inProgress)).length
    done := (ts.filter (fun t => t.status == TaskStatus.done)).length
    overdue := (ts.filter (fun t => t.overdue)).length }

/-- A registry state with one project and eleven of the caller's tasks,
exhibiting the truncation of the dashboard statistics. -/
def elevenTasksState : RegistryState :=
  { projects := [⟨1, "P", none, [⟨1, Role.owner⟩]⟩]
    tasks := (List.range 11).map (fun i =>
      ⟨i, 1, "t", none, none, TaskPriority.low, TaskStatus.todo, none, i⟩) }

theorem dashboard_listAll (s : RegistryState) (uid : Nat) :
    listAll s uid dashboardFilter =
      (s.tasks.filter
        (fun t => isMemberOfProject s uid t.project_id)).take 10 := by
  have e1 : listAll s uid dashboardFilter =
      ((s.tasks.filter
        (fun t => isMemberOfProject s uid t.project_id)).filter
          (matchesFilter dashboardFilter)).take 10 := rfl
  have e2 : List.filter (matchesFilter dashboardFilter)
      (s.tasks.filter (fun t => isMemberOfProject s uid t.project_id)) =
      s.tasks.filter (fun t => isMemberOfProject s uid t.project_id) :=
    List.filter_eq_self.mpr (fun a _ => rfl)
  rw [e1, e2]

/-- C9: every dashboard statistic is computed over only the first page of
at most ten tasks (the limit-10 request), so each statistic is at most
10 and equals the corresponding count within that first page; on a
concrete state with eleven member tasks the displayed total is 10 while
the caller has 11 tasks. -/
theorem C9_dashboard_stats_truncated (now : Nat) (s : RegistryState)
    (uid : Nat) :
    ((getTaskStats (dashboardTasks now s uid)).total ≤ 10
      ∧ (getTaskStats (dashboardTasks now s uid)).todo ≤ 10
      ∧ (getTaskStats (dashboardTasks now s uid)).inProgress ≤ 10
      ∧ (getTaskStats (dashboardTasks now s uid)).done ≤ 10
      ∧ (getTaskStats (dashboardTasks now s uid)).overdue ≤ 10)
    ∧ dashboardTasks now s uid =
        ((s.tasks.filter
          (fun t => isMemberOfProject s uid t.project_id)).take 10).map
            (readTask now)
    ∧ getTaskStats (dashboardTasks now s uid) =
        getTaskStats (((s.tasks.filter
          (fun t => isMemberOfProject s uid t.project_id)).take 10).map
            (readTask now))
    ∧ (getTaskStats (dashboardTasks 0 elevenTasksState 1)).total = 10
    ∧ (elevenTasksState.tasks.filter
        (fun t => isMemberOfProject elevenTasksState 1
          t.project_id)).length = 11 := by
  have hpage : dashboardTasks now s uid =
      ((s.tasks.filter
        (fun t => isMemberOfProject s uid t.project_id)).take 10).map
          (readTask now) := by
    unfold dashboardTasks
    rw [dashboard_listAll]
  have hlen : (dashboardTasks now s uid).length ≤ 10 := by
    rw [hpage]
    simp only [List.length_map]
    exact le_trans (List.length_take_le 10 _) le_rfl
  refine ⟨⟨hlen, ?_, ?_, ?_, ?_⟩, hpage, by rw [hpage], by decide, by decide⟩
  all_goals
    exact le_trans (List.length_filter_le _ _) hlen

/-- JS property access on a project row of a project-list response
conforming to the client `Project` interface: among the
membership-list-valued fields only `members` is declared, so looking up
any other name yields undefined. -/
def projectMembershipField (p : Project) (key : String) :
    Option (List ProjectMember) :=
  if key == "members" then some p.members else none

/-- From `loadUserStats` in the profile page: it filters the projects by
`project.project_memberships.some(member => member.user_id === user.id)`
and counts the matches; calling `.some` on an absent field is a runtime
type error, modelled as `none`. -/
def loadUserStatsProjects (projects : List Project) (uid : Nat) :
    Option Nat :=
  (projects.mapM (fun p =>
    (projectMembershipField p "project_memberships").map
      (fun ms => isMember ms uid))).map
    (fun flags => (flags.filter (fun b => b)).length)

/-- C10: the profile page reads `project.project_memberships`, a field
absent from the declared `Project` interface (which exposes `members`),
so on a conforming one-project response the access is undefined and the
projects statistic computation fails rather than being well-defined. -/
theorem C10_profile_reads_absent_field :
    projectMembershipField (Project.mk 1 "P" none [⟨1, Role.owner⟩])
        "project_memberships" = none
    ∧ projectMembershipField (Project.mk 1 "P" none [⟨1, Role.owner⟩])
        "members" = some [⟨1, Role.owner⟩]
    ∧ loadUserStatsProjects [Project.mk 1 "P" none [⟨1, Role.owner⟩]] 1 =
        none := by
  refine ⟨?_, ?_, ?_⟩ <;> decide

end Cogniboard
